import Mathlib

/-!
Verification development for the task-service repository.

We shallowly embed the privacy-masking engine (`src/utils/privacy_masker.py`),
the extraction manager (`src/utils/extraction_manager.py`), the schema
validator (`src/utils/schema_validator.py`) and the Fubon credit-card
transaction-line parser (`src/utils/extractors/fubon_credit_card_extractor.py`)
as executable Lean definitions, and prove the spec's claims about them.

Text is modelled as `List Char`; Python slices `t[s:e]` become `slice`,
in-place string rewrites become `spliceAt`.  Regular-expression matching is
modelled by a small backtracking engine (`Rx`, `matchR`, `finditer`)
reproducing Python `re` semantics (leftmost match, greedy quantifiers,
first-alternative preference, Unicode word boundaries where CJK ideographs
count as word characters) for the concrete patterns appearing in the source.
-/

/- ### basic text utilities -/

/-- Python slice `t[s:e]`. -/
def pySlice (t : List Char) (s e : Nat) : List Char := (t.take e).drop s

/-- Replace the span `[s, e)` of `t` with `m`:
`t[:s] + m + t[e:]` as in `PrivacyMasker.mask`. -/
def spliceAt (t : List Char) (s e : Nat) (m : List Char) : List Char :=
  t.take s ++ m ++ t.drop e

/-- `n` copies of the masking character, Python `'*' * n`. -/
def stars (n : Nat) : List Char := List.replicate n '*'

/-- Does `pat` occur at position `i` of `t`?  (helper for Python `in`). -/
def occursAt (t pat : List Char) (i : Nat) : Bool :=
  pat.isPrefixOf (t.drop i)

/-- Python substring containment `pat in t`. -/
def containsSub (t pat : List Char) : Bool :=
  (List.range (t.length + 1)).any (occursAt t pat)

/- ### masking pass (PrivacyMasker.mask, one category)

`PrivacyMasker.mask` collects `finditer` matches of one compiled pattern and
then iterates over `reversed(matches)`, recording a finding
(`original = match.group()`, i.e. the slice of the pre-pass text, and
`position = match.span()`) and splicing the masked value into the evolving
text.  `maskPass` is that reversed loop written as structural recursion on
the ascending span list: the tail (the matches to the right) is processed
first, then the head span is spliced, exactly as the Python loop does. -/

structure MaskFinding where
  ftype : String
  type_name : String
  original : List Char
  masked : List Char
  pos : Nat × Nat
deriving Repr, DecidableEq

/-- One category pass of `PrivacyMasker.mask`: rightmost match first. -/
def maskPass (pre : List Char) (f : List Char → List Char)
    (key cname : String) : List (Nat × Nat) → List Char × List MaskFinding
  | [] => (pre, [])
  | (s, e) :: rest =>
    let r := maskPass pre f key cname rest
    let orig := pySlice pre s e
    let mk := f orig
    (spliceAt r.1 s e mk, r.2 ++ [⟨key, cname, orig, mk, (s, e)⟩])

/-- Specification-side simultaneous replacement: replace all recorded spans
of the pre-pass text, left to right, with their masked substrings. -/
def replaceSpans (t : List Char) : List ((Nat × Nat) × List Char) → List Char
  | [] => t
  | ((s, e), m) :: rest =>
    t.take s ++ m ++
      replaceSpans (t.drop e) (rest.map (fun p => ((p.1.1 - e, p.1.2 - e), p.2)))
  termination_by l => l.length
  decreasing_by simp

/-- Sanity condition satisfied by `re.finditer` output: spans are ordered,
non-overlapping, and within the text (`s ≤ e ≤ n`, each span ends before the
next begins). -/
def spansOK (n : Nat) : List (Nat × Nat) → Bool
  | [] => true
  | (s, e) :: rest =>
    s ≤ e && e ≤ n && rest.all (fun p => e ≤ p.1) && spansOK n rest

/- compiled category: key, display name, its finditer and masking function -/

structure CompiledCategory where
  key : String
  cname : String
  finder : List Char → List (Nat × Nat)
  mask_func : List Char → List Char

/-- Processing order of `PrivacyMasker.mask`: the custom-name category (if
compiled) is processed first, then the remaining categories in registry
order, skipping the custom-name entry. -/
def passList (compiled : List CompiledCategory) : List CompiledCategory :=
  (match compiled.find? (fun c => c.key == "custom_names") with
   | some c => [c]
   | none => []) ++ compiled.filter (fun c => ¬ c.key == "custom_names")

/-- Run all passes in order, threading the current text and accumulating
findings in pass order (within a pass: rightmost first), as the Python
`mask` body does. -/
def runPasses : List CompiledCategory → List Char → List Char × List MaskFinding
  | [], t => (t, [])
  | c :: cs, t =>
    let r := maskPass t c.mask_func c.key c.cname (c.finder t)
    let r' := runPasses cs r.1
    (r'.1, r.2 ++ r'.2)

/-- Intermediate text state at the start of each pass, paired with the pass's
category and the post-pass text. -/
def stepTexts : List CompiledCategory → List Char → List (List Char × CompiledCategory × List Char)
  | [], _ => []
  | c :: cs, t =>
    let t' := (maskPass t c.mask_func c.key c.cname (c.finder t)).1
    (t, c, t') :: stepTexts cs t'

structure MaskResult where
  original : List Char
  masked : List Char
  sensitive_items : List MaskFinding
  mask_count : Nat
deriving Repr, DecidableEq

/-- `PrivacyMasker.mask`.  In the source, the custom-name branch compiles
the name pattern inside `\b( ... )\b` and records `match.span(1)`; since
`\b` is zero-width, `span(1)` coincides with the full match span, so the
custom pass is the generic pass run on the boundary-wrapped pattern's
matches. -/
def mask (compiled : List CompiledCategory) (text : List Char) : MaskResult :=
  let r := runPasses (passList compiled) text
  ⟨text, r.1, r.2, r.2.length⟩

/-- Findings contributed by each pass, in pass order (specification-side
view of the accumulated `sensitive_items`). -/
def stepItems : List (List Char × CompiledCategory × List Char) → List MaskFinding
  | [] => []
  | st :: rest =>
    (maskPass st.1 st.2.1.mask_func st.2.1.key st.2.1.cname
      (st.2.1.finder st.1)).2 ++ stepItems rest

/-- The text state after the last pass. -/
def lastPost (t : List Char) : List (List Char × CompiledCategory × List Char) → List Char
  | [] => t
  | st :: rest => lastPost st.2.2 rest

/-- A simple concrete category used to exercise the pass-level theorems:
its finder reports one in-bounds span when the text is long enough. -/
def demoFinder : List Char → List (Nat × Nat) :=
  fun u => if 2 ≤ u.length then [(0, 2)] else []

def demoCat : CompiledCategory :=
  ⟨"taiwan_id", "身分證字號", demoFinder, fun m => stars m.length⟩

/- ### a small backtracking regex engine

Python `re` matching for the concrete patterns of `privacy_masker.py`:
leftmost match, greedy bounded/unbounded repetition with backtracking,
first-alternative preference, and zero-width word boundaries.  `\w` (and
hence `\b`) follows Python's Unicode semantics restricted to the characters
actually reachable in this development: ASCII alphanumerics, underscore and
CJK unified ideographs (U+4E00..U+9FFF) are word characters. -/

def isWordChar (c : Char) : Bool :=
  ('a' ≤ c && c ≤ 'z') || ('A' ≤ c && c ≤ 'Z') || ('0' ≤ c && c ≤ '9') ||
    c == '_' || (0x4E00 ≤ c.toNat && c.toNat ≤ 0x9FFF)

def charAt (t : List Char) (i : Nat) : Option Char := t.get? i

def wordAtIs (t : List Char) (i : Nat) : Bool :=
  match charAt t i with
  | some c => isWordChar c
  | none => false

/-- Python `\b` at offset `i` of `t`. -/
def wordBoundaryAt (t : List Char) (i : Nat) : Bool :=
  let left := if i = 0 then false else wordAtIs t (i - 1)
  left != wordAtIs t i

inductive Rx where
  | eps : Rx
  | cls : (Char → Bool) → Rx
  | seq : Rx → Rx → Rx
  | alt : Rx → Rx → Rx
  | rep : Nat → Option Nat → Rx → Rx
  | wb : Rx

/-- Backtracking matcher in continuation-passing style; returns the end
offset of the first (leftmost-greedy) way to match `r` at offset `i`,
mirroring Python `re` preference order.  Fuel bounds the recursion depth. -/
def matchR : Nat → List Char → Rx → Nat → (Nat → Option Nat) → Option Nat
  | 0, _, _, _, _ => none
  | fuel + 1, t, r, i, k =>
    match r with
    | .eps => k i
    | .cls p =>
      match charAt t i with
      | some c => if p c then k (i + 1) else none
      | none => none
    | .seq a b => matchR fuel t a i (fun j => matchR fuel t b j k)
    | .alt a b =>
      match matchR fuel t a i k with
      | some e => some e
      | none => matchR fuel t b i k
    | .rep lo hi r' =>
      if lo > 0 then
        matchR fuel t r' i
          (fun j => matchR fuel t (.rep (lo - 1) (hi.map (· - 1)) r') j k)
      else
        match hi with
        | some 0 => k i
        | _ =>
          match matchR fuel t r' i
              (fun j =>
                if j = i then none
                else matchR fuel t (.rep 0 (hi.map (· - 1)) r') j k) with
          | some e => some e
          | none => k i
    | .wb => if wordBoundaryAt t i then k i else none

def engineFuel (t : List Char) : Nat := 2000 + t.length * 200

/-- Attempt a full match of `r` at offset `i`. -/
def matchAt (t : List Char) (r : Rx) (i : Nat) : Option Nat :=
  matchR (engineFuel t) t r i some

def searchFromAux : Nat → List Char → Rx → Nat → Option (Nat × Nat)
  | 0, _, _, _ => none
  | fuel + 1, t, r, i =>
    match matchAt t r i with
    | some e => some (i, e)
    | none => if t.length ≤ i then none else searchFromAux fuel t r (i + 1)

/-- Python `re.search` semantics starting at offset `i`: leftmost match. -/
def searchFrom (t : List Char) (r : Rx) (i : Nat) : Option (Nat × Nat) :=
  searchFromAux (t.length + 1 - i) t r i

def finditerAux : Nat → List Char → Rx → Nat → List (Nat × Nat)
  | 0, _, _, _ => []
  | fuel + 1, t, r, i =>
    match searchFrom t r i with
    | none => []
    | some (s, e) => (s, e) :: finditerAux fuel t r (if s < e then e else s + 1)

/-- Python `re.finditer` span list: leftmost, non-overlapping. -/
def finditer (t : List Char) (r : Rx) : List (Nat × Nat) :=
  finditerAux (t.length + 1) t r 0

/- regex constructors for literals and bounded repetition -/

def chr (c : Char) : Rx := Rx.cls (fun x => x == c)

def lit : List Char → Rx
  | [] => Rx.eps
  | [c] => chr c
  | c :: rest => Rx.seq (chr c) (lit rest)

def repB (lo hi : Nat) (r : Rx) : Rx := Rx.rep lo (some hi) r

def star (r : Rx) : Rx := Rx.rep 0 none r

def plusR (r : Rx) : Rx := Rx.rep 1 none r

def opt (r : Rx) : Rx := Rx.rep 0 (some 1) r

def seqs : List Rx → Rx
  | [] => Rx.eps
  | [r] => r
  | r :: rest => Rx.seq r (seqs rest)

/- ### PrivacyMasker.PATTERNS: the built-in detection regexes -/

def isDigitCh (c : Char) : Bool := '0' ≤ c && c ≤ '9'

def isUpperAZ (c : Char) : Bool := 'A' ≤ c && c ≤ 'Z'

def isLowerAZ (c : Char) : Bool := 'a' ≤ c && c ≤ 'z'

/-- Python `\s` (ASCII part; no other whitespace appears in this development). -/
def isSpaceCh (c : Char) : Bool :=
  c == ' ' || c == '\t' || c == '\n' || c == '\x0b' || c == '\x0c' || c == '\r'

/-- `[A-Z][12]\d{8}` -/
def rxTaiwanId : Rx :=
  seqs [Rx.cls isUpperAZ, Rx.cls (fun c => c == '1' || c == '2'),
    repB 8 8 (Rx.cls isDigitCh)]

/-- `09\d{8}` -/
def rxPhone : Rx := seqs [chr '0', chr '9', repB 8 8 (Rx.cls isDigitCh)]

/-- `0\d{1,2}-?\d{6,8}` -/
def rxLandline : Rx :=
  seqs [chr '0', repB 1 2 (Rx.cls isDigitCh), opt (chr '-'),
    repB 6 8 (Rx.cls isDigitCh)]

/-- `\b\d{4}[-\s]?\d{4}[-\s]?\d{4}[-\s]?\d{4}\b` -/
def rxCreditCard : Rx :=
  seqs [Rx.wb, repB 4 4 (Rx.cls isDigitCh),
    opt (Rx.cls (fun c => c == '-' || isSpaceCh c)), repB 4 4 (Rx.cls isDigitCh),
    opt (Rx.cls (fun c => c == '-' || isSpaceCh c)), repB 4 4 (Rx.cls isDigitCh),
    opt (Rx.cls (fun c => c == '-' || isSpaceCh c)), repB 4 4 (Rx.cls isDigitCh),
    Rx.wb]

/-- `\b[A-Za-z0-9._%+-]+@[A-Za-z0-9.-]+\.[A-Z|a-z]{2,}\b`
(the last class literally contains the bar character, as in the source). -/
def rxEmail : Rx :=
  seqs [Rx.wb,
    plusR (Rx.cls (fun c => isUpperAZ c || isLowerAZ c || isDigitCh c ||
      c == '.' || c == '_' || c == '%' || c == '+' || c == '-')),
    chr '@',
    plusR (Rx.cls (fun c => isUpperAZ c || isLowerAZ c || isDigitCh c ||
      c == '.' || c == '-')),
    chr '.',
    Rx.rep 2 none (Rx.cls (fun c => isUpperAZ c || isLowerAZ c || c == '|')),
    Rx.wb]

/-- `\b\d{10,16}\b` -/
def rxBankAccount : Rx := seqs [Rx.wb, repB 10 16 (Rx.cls isDigitCh), Rx.wb]

/-- `[縣市][^縣市]{0,3}[鄉鎮市區][^鄉鎮市區]{0,10}[路街段巷弄號][\d\-之]*號?` -/
def rxAddress : Rx :=
  seqs [Rx.cls (fun c => c == '縣' || c == '市'),
    repB 0 3 (Rx.cls (fun c => ¬ (c == '縣' || c == '市'))),
    Rx.cls (fun c => c == '鄉' || c == '鎮' || c == '市' || c == '區'),
    repB 0 10 (Rx.cls (fun c => ¬ (c == '鄉' || c == '鎮' || c == '市' || c == '區'))),
    Rx.cls (fun c => c == '路' || c == '街' || c == '段' || c == '巷' || c == '弄' || c == '號'),
    star (Rx.cls (fun c => isDigitCh c || c == '-' || c == '之')),
    opt (chr '號')]

/-- The date-of-birth alternation: an ROC date `\d{2,3}年\d{1,2}月\d{1,2}日`
or a Gregorian date `\d{4} sep \d{1,2} sep \d{1,2}` where `sep` is the
class holding a dash or a forward slash. -/
def rxDateOfBirth : Rx :=
  Rx.alt
    (seqs [repB 2 3 (Rx.cls isDigitCh), chr '年', repB 1 2 (Rx.cls isDigitCh),
      chr '月', repB 1 2 (Rx.cls isDigitCh), chr '日'])
    (seqs [repB 4 4 (Rx.cls isDigitCh), Rx.cls (fun c => c == '-' || c == '/'),
      repB 1 2 (Rx.cls isDigitCh), Rx.cls (fun c => c == '-' || c == '/'),
      repB 1 2 (Rx.cls isDigitCh)])

/- ### PrivacyMasker.PATTERNS: the built-in masking lambdas -/

/-- `lambda m: m[0] + '*' * 8 + m[-1]` -/
def maskTaiwanId (m : List Char) : List Char :=
  m.take 1 ++ stars 8 ++ m.drop (m.length - 1)

/-- `lambda m: m[:4] + '****' + m[-2:]` -/
def maskPhone (m : List Char) : List Char :=
  m.take 4 ++ stars 4 ++ m.drop (m.length - 2)

/-- `re.sub(r'\d{4,}', stars, m)`: star every maximal digit run of length ≥ 4. -/
def maskLandlineAux : Nat → List Char → List Char
  | 0, l => l
  | _ + 1, [] => []
  | fuel + 1, c :: rest =>
    if isDigitCh c then
      let run := (c :: rest).takeWhile isDigitCh
      let rest' := (c :: rest).dropWhile isDigitCh
      (if 4 ≤ run.length then stars run.length else run) ++ maskLandlineAux fuel rest'
    else c :: maskLandlineAux fuel rest

def maskLandline (m : List Char) : List Char := maskLandlineAux m.length m

/-- `lambda m: '**** **** **** ' + m.replace('-','').replace(' ','')[-4:]` -/
def maskCreditCard (m : List Char) : List Char :=
  let digits := m.filter (fun c => ¬ (c == '-') && ¬ (c == ' '))
  "**** **** **** ".toList ++ digits.drop (digits.length - 4)

def splitOnChar : List Char → Char → List (List Char)
  | [], _ => [[]]
  | x :: rest, c =>
    match splitOnChar rest c with
    | [] => [[]]
    | seg :: segs => if x == c then [] :: seg :: segs else (x :: seg) :: segs

/-- `lambda m: m[0] + '***@' + m.split('@')[1]` (every match contains
exactly one at sign, so index 1 exists). -/
def maskEmail (m : List Char) : List Char :=
  m.take 1 ++ "***@".toList ++ ((splitOnChar m '@').getD 1 [])

/-- `lambda m: '*' * (len(m) - 4) + m[-4:]` -/
def maskBankAccount (m : List Char) : List Char :=
  stars (m.length - 4) ++ m.drop (m.length - 4)

/-- `lambda m: m[:6] + '***'` -/
def maskAddress (m : List Char) : List Char := m.take 6 ++ "***".toList

/-- `lambda m: '****/**/**'` -/
def maskDateOfBirth (_ : List Char) : List Char := "****/**/**".toList

/-- `lambda m: '*' * len(m)` (custom names; also the aggressive
`numbers` category). -/
def maskFullStars (m : List Char) : List Char := stars m.length

/-- The compiled built-in category list of a default `PrivacyMasker()`:
insertion order of the `PATTERNS` class dict. -/
def builtinCompiled : List CompiledCategory :=
  [⟨"taiwan_id", "身分證字號", fun t => finditer t rxTaiwanId, maskTaiwanId⟩,
   ⟨"phone", "手機號碼", fun t => finditer t rxPhone, maskPhone⟩,
   ⟨"landline", "市話", fun t => finditer t rxLandline, maskLandline⟩,
   ⟨"credit_card", "信用卡號", fun t => finditer t rxCreditCard, maskCreditCard⟩,
   ⟨"email", "電子郵件", fun t => finditer t rxEmail, maskEmail⟩,
   ⟨"bank_account", "銀行帳號", fun t => finditer t rxBankAccount, maskBankAccount⟩,
   ⟨"address", "地址", fun t => finditer t rxAddress, maskAddress⟩,
   ⟨"date_of_birth", "出生日期", fun t => finditer t rxDateOfBirth, maskDateOfBirth⟩]

/-- The custom-name category as compiled by `_add_custom_names_pattern`
followed by the boundary wrapping in `mask`: the escaped alternation of the
names inside `\b( ... )\b`.  `re.escape` is the identity on the CJK names
used here. -/
def altList : List Rx → Rx
  | [] => Rx.cls (fun _ => false)
  | [r] => r
  | r :: rest => Rx.alt r (altList rest)

def customNamesCategory (names : List (List Char)) : CompiledCategory :=
  ⟨"custom_names", "自訂姓名",
    fun t => finditer t (seqs [Rx.wb, altList (names.map lit), Rx.wb]),
    maskFullStars⟩

/- ### SmartPrivacyMasker state and mask_with_context -/

/-- The mutable fields of a `SmartPrivacyMasker` instance that
`mask_with_context` can touch, together with the compiled pattern set that
`mask` actually reads. -/
structure SmartMaskerSt where
  mask_types : List String
  aggressive : Bool
  compiled : List CompiledCategory

/-- The `mask` method invoked on an instance: it reads only
`self.compiled_patterns`. -/
def maskST (st : SmartMaskerSt) (text : List Char) : MaskResult :=
  mask st.compiled text

/-- `SmartPrivacyMasker.mask_with_context`: possibly adjusts `mask_types`
or the `aggressive` flag based on fixed keywords found in the text, then
calls `self.mask(text)`.  Returns the result together with the
post-call instance state. -/
def mask_with_context (st : SmartMaskerSt) (text : List Char)
    (context_keywords : Option (List (List Char))) : MaskResult × SmartMaskerSt :=
  let st' :=
    match context_keywords with
    | none => st
    | some kws =>
      if kws.isEmpty then st
      else if ["帳單".toList, "消費".toList, "交易".toList].any
          (fun kw => containsSub text kw) then
        { st with mask_types := st.mask_types.filter (fun t => ¬ t == "amount") }
      else if ["身分證".toList, "戶籍".toList].any
          (fun kw => containsSub text kw) then
        { st with aggressive := true }
      else st
  (mask st'.compiled text, st')

/- ### the process-wide PATTERNS registry (class attribute)

`PrivacyMasker.PATTERNS` is a class-level dict.  `_add_custom_names_pattern`
performs `self.PATTERNS['custom_names'] = ...` and aggressive
`SmartPrivacyMasker.__init__` performs `self.PATTERNS.update(...)`; both
resolve to the shared class dict, so we model the registry as a value
threaded through every construction.  Entries are the raw regex text plus
display name; Python dict assignment replaces in place when the key exists
and appends otherwise. -/

structure PatternEntry where
  pattern : String
  pname : String
deriving DecidableEq, Repr

def dictSet (d : List (String × PatternEntry)) (k : String) (v : PatternEntry) :
    List (String × PatternEntry) :=
  if d.any (fun p => p.1 == k) then
    d.map (fun p => if p.1 == k then (k, v) else p)
  else d ++ [(k, v)]

def dictUpdate (d : List (String × PatternEntry))
    (kvs : List (String × PatternEntry)) : List (String × PatternEntry) :=
  kvs.foldl (fun acc p => dictSet acc p.1 p.2) d

/-- The initial contents of `PrivacyMasker.PATTERNS`, in insertion order. -/
def initPATTERNS : List (String × PatternEntry) :=
  [("taiwan_id", ⟨"[A-Z][12]\\d{8}", "身分證字號"⟩),
   ("phone", ⟨"09\\d{8}", "手機號碼"⟩),
   ("landline", ⟨"0\\d{1,2}-?\\d{6,8}", "市話"⟩),
   ("credit_card", ⟨"\\b\\d{4}[-\\s]?\\d{4}[-\\s]?\\d{4}[-\\s]?\\d{4}\\b", "信用卡號"⟩),
   ("email", ⟨"\\b[A-Za-z0-9._%+-]+@[A-Za-z0-9.-]+\\.[A-Z|a-z]{2,}\\b", "電子郵件"⟩),
   ("bank_account", ⟨"\\b\\d{10,16}\\b", "銀行帳號"⟩),
   ("address", ⟨"[縣市][^縣市]{0,3}[鄉鎮市區][^鄉鎮市區]{0,10}[路街段巷弄號][\\d\\-之]*號?", "地址"⟩),
   ("date_of_birth", ⟨"(\\d{2,3}年\\d{1,2}月\\d{1,2}日|\\d{4}[-/]\\d{1,2}[-/]\\d{1,2})", "出生日期"⟩)]

/-- `PrivacyMasker._compile_patterns`: one compiled entry per requested
mask type present in the registry, in `mask_types` order. -/
def compilePatterns (registry : List (String × PatternEntry))
    (mask_types : List String) : List (String × PatternEntry) :=
  mask_types.filterMap (fun ty =>
    (registry.find? (fun p => p.1 == ty)).map (fun e => (ty, e.2)))

/-- Observable state of a `PrivacyMasker` instance for the registry claims. -/
structure MaskerSt where
  mask_types : List String
  custom_names : List String
  compiled : List (String × PatternEntry)
deriving DecidableEq, Repr

/-- `'|'.join(re.escape(name) for name in names)`; `re.escape` is the
identity on the CJK names used in this development. -/
def joinBar (names : List String) : String := String.intercalate "|" names

/-- `PrivacyMasker.__init__(mask_types, custom_names)` acting on the shared
registry `w`.  Python `or` treats an empty list like `None`; the
environment-variable name source (`_load_custom_names`) is modelled as
empty (no `PRIVACY_*` variables).  When custom names are present,
`_add_custom_names_pattern` writes the `custom_names` entry into the shared
class dict, extends `mask_types`, and recompiles. -/
def mkPrivacyMasker (w : List (String × PatternEntry))
    (maskTypes : Option (List String)) (customNames : Option (List String)) :
    List (String × PatternEntry) × MaskerSt :=
  let mts := match maskTypes with
    | some l => if l.isEmpty then w.map (fun p => p.1) else l
    | none => w.map (fun p => p.1)
  let cns := match customNames with
    | some l => l
    | none => []
  if cns.isEmpty then (w, ⟨mts, cns, compilePatterns w mts⟩)
  else
    let w' := dictSet w "custom_names" ⟨joinBar cns, "自訂姓名"⟩
    let mts' := if mts.contains "custom_names" then mts else mts ++ ["custom_names"]
    (w', ⟨mts', cns, compilePatterns w' mts'⟩)

/-- `SmartPrivacyMasker.__init__(mask_types, aggressive)`: runs the parent
constructor, then in aggressive mode `self.PATTERNS.update({...})` adds the
`amount` and `numbers` entries to the shared class dict and recompiles with
the instance's (unchanged) `mask_types`. -/
def mkSmartPrivacyMasker (w : List (String × PatternEntry))
    (maskTypes : Option (List String)) (aggressive : Bool) :
    List (String × PatternEntry) × MaskerSt :=
  let r := mkPrivacyMasker w maskTypes none
  if aggressive then
    let w2 := dictUpdate r.1
      [("amount", ⟨"NT?\\$?\\s*[\\d,]+(?:\\.\\d+)?(?:元)?", "金額"⟩),
       ("numbers", ⟨"\\b\\d{6,}\\b", "長數字"⟩)]
    (w2, { r.2 with compiled := compilePatterns w2 r.2.mask_types })
  else r

/-- Compiled pattern set of `PrivacyMasker(custom_names=names)`: the
built-ins in registry order with the dynamically added custom-name category
appended (dict insertion order), which `mask` then processes first. -/
def maskerWithCustomNames (names : List (List Char)) : List CompiledCategory :=
  builtinCompiled ++ [customNamesCategory names]

/-- Compiled pattern set of `PrivacyMasker(mask_types=['taiwan_id'])`,
used to exercise the idempotence theorem. -/
def taiwanIdOnlyCompiled : List CompiledCategory :=
  [⟨"taiwan_id", "身分證字號", fun t => finditer t rxTaiwanId, maskTaiwanId⟩]

/- ### ExtractionManager (src/utils/extraction_manager.py)

The manager is embedded parametrically: extractor behaviour
(`can_extract` / `extract`, the latter returning `Except` to model a raised
exception), the schema validator's `validate_with_details` (a total
function, since it catches everything internally), and the AI collaborator
(`AIIntegrator` construction, `analyze_document`, `json.loads`) are
parameters; the registry of `_register_extractors` is the extractor list
passed in ( `[FubonCreditCardExtractor()]` in the source).  A record payload
is abstracted to its `document_type` (all the manager reads) plus a tag
distinguishing distinct payloads. -/

structure RecData where
  document_type : Option String
  tag : Nat
deriving DecidableEq, Repr

structure ValidationRes where
  valid : Bool
  verrors : List String
  vwarnings : List String
  schema_name : String
deriving DecidableEq, Repr

structure MetaD where
  filename : Option String
  total_pages : Option Nat
deriving DecidableEq, Repr

structure ExtractorB where
  name : String
  canExtract : List Char → Bool
  extractF : List Char → Option MetaD → Except String RecData

structure AIResponse where
  success : Bool
  content : String
  error : Option String
deriving DecidableEq, Repr

structure AIEnv where
  integratorInit : String → Except String Unit
  analyze : List Char → String → AIResponse
  parseJson : String → Option RecData

/-- The result dict built by `ExtractionManager.extract` /
`_try_ai_extraction`: the `extractor` key is only present on the rule path
and a JSON-decode failure stores the raw AI content instead of a record. -/
structure MgrResult where
  success : Bool
  method : Option String
  data : Option RecData
  raw_content : Option String
  validation : Option ValidationRes
  errors : List String
  extractor : Option String
deriving DecidableEq, Repr

structure ExtractionManager where
  enable_ai_fallback : Bool
  ai_provider : String
deriving DecidableEq, Repr

/-- `ExtractionManager.__init__`: stores the flags and registers the
extractors; no statement raises — in particular the provider identifier is
stored unchecked, so construction always succeeds. -/
def mkExtractionManager (enable_ai_fallback : Bool) (ai_provider : String) :
    Except String ExtractionManager :=
  .ok ⟨enable_ai_fallback, ai_provider⟩

/-- `AIProvider(value)`: the closed enum {openai, claude, custom}; any
other string raises `ValueError("'v' is not a valid AIProvider")`. -/
def AIProviderOfString (s : String) : Except String String :=
  if s == "openai" || s == "claude" || s == "custom" then .ok s
  else .error ("'" ++ s ++ "' is not a valid AIProvider")

/-- `ExtractionManager._get_schema_name`. -/
def getSchemaName (document_type : Option String) : Option String :=
  match document_type with
  | some "credit_card" => some "credit_card_schema"
  | some "bank_statement" => some "bank_statement_schema"
  | _ => none

/-- Python string truthiness of an optional string. -/
def pyStrTruthy (s : Option String) : Bool :=
  match s with
  | some v => ¬ v.isEmpty
  | none => false

/-- `ExtractionManager._try_ai_extraction`.  The whole body is wrapped in
`try/except`; the two modelled raise sites (enum construction, integrator
construction) are surfaced as the caught `AI 提取錯誤` message. -/
def tryAIExtraction (env : AIEnv) (mgr : ExtractionManager)
    (validator : RecData → String → ValidationRes)
    (text : List Char) (document_type : Option String) : MgrResult :=
  let base : MgrResult := ⟨false, some "ai", none, none, none, [], none⟩
  match AIProviderOfString mgr.ai_provider with
  | .error e => { base with errors := ["AI 提取錯誤: " ++ e] }
  | .ok p =>
    match env.integratorInit p with
    | .error e => { base with errors := ["AI 提取錯誤: " ++ e] }
    | .ok _ =>
      let dtArg := if pyStrTruthy document_type then document_type.getD ""
        else "financial"
      let resp := env.analyze text dtArg
      if resp.success then
        match env.parseJson resp.content with
        | some d =>
          let withData := { base with success := true, data := some d }
          if pyStrTruthy document_type then
            match getSchemaName document_type with
            | some sn => { withData with validation := some (validator d sn) }
            | none => withData
          else withData
        | none => { base with success := true, raw_content := some resp.content }
      else { base with errors := ["AI 提取失敗: " ++ resp.error.getD "None"] }

/-- The extractor loop of `ExtractionManager.extract`: first component is
the early-`return` value when one fires, second the result threaded through
the loop (accumulating `規則提取失敗` errors from raising extractors). -/
def ruleLoop (env : AIEnv) (validator : RecData → String → ValidationRes)
    (mgr : ExtractionManager) (text : List Char) (metadata : Option MetaD)
    (validate : Bool) : List ExtractorB → MgrResult → Option MgrResult × MgrResult
  | [], res => (none, res)
  | ex :: rest, res =>
    if ex.canExtract text then
      match ex.extractF text metadata with
      | .ok data =>
        let res1 := { res with
          success := true
          method := some "rule_based"
          data := some data
          extractor := some ex.name }
        if validate then
          match getSchemaName data.document_type with
          | some schema_name =>
            let vres := validator data schema_name
            let res2 := { res1 with validation := some vres }
            if !vres.valid && mgr.enable_ai_fallback then
              let res3 := { res2 with
                errors := res2.errors ++ ["規則提取驗證失敗，嘗試 AI fallback"] }
              let ai := tryAIExtraction env mgr validator text data.document_type
              if ai.success then (some ai, res3) else (some res3, res3)
            else (some res2, res2)
          | none => (some res1, res1)
        else (some res1, res1)
      | .error e =>
        ruleLoop env validator mgr text metadata validate rest
          { res with errors := res.errors ++ ["規則提取失敗: " ++ e] }
    else ruleLoop env validator mgr text metadata validate rest res

/-- `ExtractionManager.extract`. -/
def managerExtract (env : AIEnv) (validator : RecData → String → ValidationRes)
    (mgr : ExtractionManager) (extractors : List ExtractorB)
    (text : List Char) (metadata : Option MetaD) (validate : Bool) : MgrResult :=
  let init : MgrResult := ⟨false, none, none, none, none, [], none⟩
  match ruleLoop env validator mgr text metadata validate extractors init with
  | (some r, _) => r
  | (none, res) =>
    let res2 := if !res.success && mgr.enable_ai_fallback then
        tryAIExtraction env mgr validator text none
      else res
    if !res2.success then
      { res2 with errors := res2.errors ++ ["無法識別文件類型或提取失敗"] }
    else res2

/- concrete instantiations used by the manager theorems -/

def dummyAIEnv : AIEnv :=
  ⟨fun _ => .ok (), fun _ _ => ⟨false, "", none⟩, fun _ => none⟩

def okAIEnv : AIEnv :=
  ⟨fun _ => .ok (),
   fun _ _ => ⟨true, "\x7b\x7d", none⟩,
   fun _ => some ⟨some "credit_card", 2⟩⟩

def validatorOK : RecData → String → ValidationRes :=
  fun _ sn => ⟨true, [], [], sn⟩

def validatorFail : RecData → String → ValidationRes :=
  fun _ sn => ⟨false, ["missing required field"], [], sn⟩

def fubonLikeExtractor : ExtractorB :=
  ⟨"FubonCreditCardExtractor", fun _ => true,
   fun _ _ => .ok ⟨some "credit_card", 1⟩⟩

/- ### SchemaValidator (src/utils/schema_validator.py)

`validate_with_details` is embedded with the schema loader (`load_schema`,
whose cache is invisible to a single call) and the Draft7 error iterator as
parameters; `_check_warnings` and `_has_field` are embedded in full over a
JSON value model. -/

inductive JVal where
  | jnull : JVal
  | jbool : Bool → JVal
  | jnum : Int → JVal
  | jstr : String → JVal
  | jarr : List JVal → JVal
  | jobj : List (String × JVal) → JVal

/-- Python `d.get(k)` on a dict. -/
def jGet (fields : List (String × JVal)) (k : String) : Option JVal :=
  (fields.find? (fun p => p.1 == k)).map (fun p => p.2)

inductive LoadErr where
  | fileNotFound : String → LoadErr
  | other : String → LoadErr

structure VErr where
  message : String
  path : List String
  schema_path : List String
  validator_kw : String
deriving DecidableEq, Repr

/-- An entry of the report's `errors` list: either a full Draft7 error dict
or the single-key `message` dict used on the exception paths. -/
inductive ErrItem where
  | full : String → List String → List String → String → ErrItem
  | msgOnly : String → ErrItem
deriving DecidableEq, Repr

structure VReport where
  valid : Bool
  errors : List ErrItem
  warnings : List String
  schema_name : String
deriving DecidableEq, Repr

/-- `SchemaValidator._has_field`, by recursion on the dotted path parts. -/
def hasFieldAux : List String → JVal → Bool
  | [], .jnull => false
  | [], _ => true
  | part :: rest, .jobj fields =>
    match jGet fields part with
    | some v => hasFieldAux rest v
    | none => false
  | _ :: _, _ => false

/-- Python `path.split('.')`, written over the character list so that it
evaluates by kernel reduction. -/
def splitOnDot (s : String) : List String :=
  (splitOnChar s.toList '.').map (fun l => String.mk l)

def hasField (data : JVal) (fieldPath : String) : Bool :=
  hasFieldAux (splitOnDot fieldPath) data

/-- The fixed `optional_important_fields` table of `_check_warnings`. -/
def optionalImportantFields : List (String × List String) :=
  [("credit_card",
    ["summary", "interest_info.annual_interest_fee", "card_info.credit_limit"]),
   ("bank_statement", ["summary", "balance_info.available_balance"])]

/-- `SchemaValidator._check_warnings` (its `schema` argument is unused). -/
def checkWarnings (data : List (String × JVal)) : List String :=
  match jGet data "document_type" with
  | some (JVal.jstr s) =>
    match optionalImportantFields.find? (fun p => p.1 == s) with
    | some p =>
      p.2.filterMap (fun fp =>
        if hasField (JVal.jobj data) fp then none
        else some ("建議填寫欄位: " ++ fp))
    | none => []
  | _ => []

/-- `SchemaValidator.validate_with_details`.  `available` models
`JSONSCHEMA_AVAILABLE`; `loadSchema` models `load_schema` (raising
`FileNotFoundError` or any other exception via `LoadErr`); `iterErrors`
models `Draft7Validator(schema).iter_errors(data)`. -/
def validate_with_details (available : Bool)
    (loadSchema : String → Except LoadErr JVal)
    (iterErrors : List (String × JVal) → JVal → List VErr)
    (data : List (String × JVal)) (schema_name : String) : VReport :=
  if ¬ available then
    ⟨false, [ErrItem.msgOnly "jsonschema 套件未安裝"], [], schema_name⟩
  else
    match loadSchema schema_name with
    | .error (.fileNotFound m) => ⟨false, [ErrItem.msgOnly m], [], schema_name⟩
    | .error (.other m) =>
      ⟨false, [ErrItem.msgOnly ("驗證時發生錯誤: " ++ m)], [], schema_name⟩
    | .ok schema =>
      let errs := iterErrors data schema
      ⟨errs.isEmpty,
       if errs.isEmpty then []
       else errs.map (fun e => ErrItem.full e.message e.path e.schema_path e.validator_kw),
       checkWarnings data, schema_name⟩

/- ### FubonCreditCardExtractor._parse_transaction_line

The line parser is embedded with dedicated scanners for each of its concrete
regexes (date triple, trailing amount token, currency alternation, foreign
amount, installment fraction, remaining-balance phrase).  Monetary values
from `[\d,]+` tokens are integers (`float` is exact on them); the decimal
foreign amount is modelled exactly as mantissa/scale. -/

def natOfDigits (ds : List Char) : Nat :=
  ds.foldl (fun acc c => acc * 10 + (c.toNat - 48)) 0

def isPySpace (c : Char) : Bool := isSpaceCh c

/-- Python `str.strip()`. -/
def pyStrip (l : List Char) : List Char :=
  ((l.dropWhile isPySpace).reverse.dropWhile isPySpace).reverse

def digitsRunAt (cs : List Char) (i : Nat) : Nat :=
  ((cs.drop i).takeWhile isDigitCh).length

/-- Match `(\d{2,3})/(\d{1,2})/(\d{1,2})` at offset `i` (greedy with
backtracking on the bounded counters): returns the three numbers and the end
offset. -/
def matchDateAt (cs : List Char) (i : Nat) : Option (Nat × Nat × Nat × Nat) :=
  let run0 := digitsRunAt cs i
  let yl? : Option Nat :=
    if 3 ≤ run0 && charAt cs (i + 3) == some '/' then some 3
    else if 2 ≤ run0 && charAt cs (i + 2) == some '/' then some 2
    else none
  match yl? with
  | none => none
  | some yl =>
    let y := natOfDigits (pySlice cs i (i + yl))
    let j := i + yl + 1
    let run1 := digitsRunAt cs j
    let ml? : Option Nat :=
      if 2 ≤ run1 && charAt cs (j + 2) == some '/' then some 2
      else if 1 ≤ run1 && charAt cs (j + 1) == some '/' then some 1
      else none
    match ml? with
    | none => none
    | some ml =>
      let mo := natOfDigits (pySlice cs j (j + ml))
      let k := j + ml + 1
      let run2 := digitsRunAt cs k
      if 1 ≤ run2 then
        let dl := min 2 run2
        some (y, mo, natOfDigits (pySlice cs k (k + dl)), k + dl)
      else none

/-- `re.findall` of the date pattern: leftmost, non-overlapping. -/
def findDatesAux : Nat → List Char → Nat → List (Nat × Nat × Nat)
  | 0, _, _ => []
  | fuel + 1, cs, i =>
    if cs.length ≤ i then []
    else
      match matchDateAt cs i with
      | some (y, mo, d, e) => (y, mo, d) :: findDatesAux fuel cs e
      | none => findDatesAux fuel cs (i + 1)

def findDates (cs : List Char) : List (Nat × Nat × Nat) :=
  findDatesAux (cs.length + 1) cs 0

def findDateSpansAux : Nat → List Char → Nat → List (Nat × Nat)
  | 0, _, _ => []
  | fuel + 1, cs, i =>
    if cs.length ≤ i then []
    else
      match matchDateAt cs i with
      | some (_, _, _, e) => (i, e) :: findDateSpansAux fuel cs e
      | none => findDateSpansAux fuel cs (i + 1)

def segmentsFrom (cs : List Char) : Nat → List (Nat × Nat) → List (List Char)
  | pos, [] => [pySlice cs pos cs.length]
  | pos, (s, e) :: rest => pySlice cs pos s :: segmentsFrom cs e rest

/-- `re.split` on the (group-free) date pattern. -/
def splitByDates (cs : List Char) : List (List Char) :=
  segmentsFrom cs 0 (findDateSpansAux (cs.length + 1) cs 0)

/-- The trailing `([\d,]+)$` token of a line. -/
def trailingNumTok (l : List Char) : Option (List Char) :=
  let suffix := (l.reverse.takeWhile (fun c => isDigitCh c || c == ',')).reverse
  if suffix.isEmpty then none else some suffix

/-- `re.sub(r'\s+[\d,]+$', '', d)`. -/
def stripTrailingAmount (d : List Char) : List Char :=
  let rev := d.reverse
  let num := rev.takeWhile (fun c => isDigitCh c || c == ',')
  let rest := rev.drop num.length
  let ws := rest.takeWhile isPySpace
  if num.isEmpty || ws.isEmpty then d else (rest.drop ws.length).reverse

/-- `re.sub(r'TWD|JPY|USD|EUR', '', s)` (note: CNY is not removed here). -/
def removeCurrTokens : Nat → List Char → List Char
  | 0, l => l
  | _ + 1, [] => []
  | fuel + 1, l@(c :: rest) =>
    if "TWD".toList.isPrefixOf l then removeCurrTokens fuel (l.drop 3)
    else if "JPY".toList.isPrefixOf l then removeCurrTokens fuel (l.drop 3)
    else if "USD".toList.isPrefixOf l then removeCurrTokens fuel (l.drop 3)
    else if "EUR".toList.isPrefixOf l then removeCurrTokens fuel (l.drop 3)
    else c :: removeCurrTokens fuel rest

/-- First whitespace-separated token, Python `s.split()[0]`. -/
def firstTok (d : List Char) : List Char :=
  (d.dropWhile isPySpace).takeWhile (fun c => ¬ isPySpace c)

/-- Generic leftmost scan: apply `f` at every suffix, left to right. -/
def scanFor {α : Type} (f : List Char → Option α) : Nat → List Char → Option α
  | 0, _ => none
  | fuel + 1, l =>
    match f l with
    | some a => some a
    | none =>
      match l with
      | [] => none
      | _ :: rest => scanFor f fuel rest

/-- One alternative of `(TWD|JPY|USD|EUR|CNY)` at the current position. -/
def currencyAt (l : List Char) : Option (List Char) :=
  if "TWD".toList.isPrefixOf l then some "TWD".toList
  else if "JPY".toList.isPrefixOf l then some "JPY".toList
  else if "USD".toList.isPrefixOf l then some "USD".toList
  else if "EUR".toList.isPrefixOf l then some "EUR".toList
  else if "CNY".toList.isPrefixOf l then some "CNY".toList
  else none

def findCurrency (l : List Char) : Option (List Char) :=
  scanFor currencyAt (l.length + 1) l

/-- Exact decimal: `mantissa / 10 ^ scale`, the value Python's `float` gets
from the matched decimal literal. -/
structure Dec where
  mantissa : Nat
  scale : Nat
deriving DecidableEq, Repr

/-- The foreign-amount pattern `([\d,]+\.\d+)/` at the current position. -/
def foreignAt (l : List Char) : Option Dec :=
  let tok := l.takeWhile (fun c => isDigitCh c || c == ',')
  if tok.isEmpty then none
  else
    match l.drop tok.length with
    | '.' :: rest2 =>
      let frac := rest2.takeWhile isDigitCh
      if frac.isEmpty then none
      else
        match rest2.drop frac.length with
        | '/' :: _ => some ⟨natOfDigits (tok.filter isDigitCh ++ frac), frac.length⟩
        | _ => none
    | _ => none

def findForeign (l : List Char) : Option Dec :=
  scanFor foreignAt (l.length + 1) l

/-- The installment pattern at the current position: an open parenthesis,
`(\d+)/(\d+)`, the character 期 and a closing parenthesis. -/
def installmentAt (l : List Char) : Option (Nat × Nat) :=
  match l with
  | '(' :: rest =>
    let r1 := rest.takeWhile isDigitCh
    if r1.isEmpty then none
    else
      match rest.drop r1.length with
      | '/' :: rest2 =>
        let r2 := rest2.takeWhile isDigitCh
        if r2.isEmpty then none
        else
          match rest2.drop r2.length with
          | '期' :: ')' :: _ => some (natOfDigits r1, natOfDigits r2)
          | _ => none
      | _ => none
  | _ => none

def findInstallment (l : List Char) : Option (Nat × Nat) :=
  scanFor installmentAt (l.length + 1) l

/-- `尚有未到期金額NT\$\s*([\d,]+)` at the current position, returning the
captured token. -/
def remainingAt (l : List Char) : Option (List Char) :=
  let lit := "尚有未到期金額NT$".toList
  if lit.isPrefixOf l then
    let rest := (l.drop lit.length).dropWhile isPySpace
    let tok := rest.takeWhile (fun c => isDigitCh c || c == ',')
    if tok.isEmpty then none else some tok
  else none

def findRemainingTok (l : List Char) : Option (List Char) :=
  scanFor remainingAt (l.length + 1) l

def digitChar (n : Nat) : Char := Char.ofNat (48 + n)

def natToDigitsAux : Nat → Nat → List Char
  | 0, _ => []
  | fuel + 1, n =>
    if n < 10 then [digitChar n]
    else natToDigitsAux fuel (n / 10) ++ [digitChar (n % 10)]

def natToDigits (n : Nat) : List Char := natToDigitsAux (n + 1) n

/-- Python `f"{n:0wd}"`. -/
def fmt0 (w n : Nat) : List Char :=
  let ds := natToDigits n
  List.replicate (w - ds.length) '0' ++ ds

/-- `f"{year:04d}-{month:02d}-{day:02d}"`. -/
def fmtDate (y mo d : Nat) : String :=
  String.mk (fmt0 4 y ++ ['-'] ++ fmt0 2 mo ++ ['-'] ++ fmt0 2 d)

structure Transaction where
  transaction_date : String
  post_date : Option String
  amount : Int
  description : Option String
  merchant : Option String
  currency : String
  foreign_amount : Option Dec
  transaction_type : String
  installment_current : Option Nat
  installment_total : Option Nat
  installment_remaining : Option Int
deriving DecidableEq, Repr

/-- Keywords indicating a payment / debit settlement line. -/
def indicatesPayment (line : List Char) : Bool :=
  containsSub line "繳款".toList || containsSub line "扣繳".toList

/-- `float(token.replace(',', ''))` on a `[\d,]+` token: the integer value,
or `none` when the token is comma-only and `float('')` raises. -/
def floatOfNumTok (tok : List Char) : Option Nat :=
  if (tok.filter isDigitCh).isEmpty then none
  else some (natOfDigits (tok.filter isDigitCh))

/-- Installment information of a line, when its computation does not raise:
`(current_period, total_periods, remaining_amount)`, all absent outside the
installment branch. -/
def installmentInfoOf (line : List Char) : Option (Option Nat × Option Nat × Option Int) :=
  if indicatesPayment line then some (none, none, none)
  else if containsSub line "分期".toList then
    match findInstallment line with
    | some (cur, tot) =>
      match findRemainingTok line with
      | some tok2 =>
        match floatOfNumTok tok2 with
        | some r => some (some cur, some tot, some (r : Int))
        | none => none
      | none => some (some cur, some tot, none)
    | none => some (none, none, none)
  else some (none, none, none)

/-- The transaction record assembled by `_parse_transaction_line` from the
leading date, the trailing amount value `v` and the installment triple. -/
def buildTransaction (line : List Char) (yr mo dy : Nat) (v : Nat)
    (inst : Option Nat × Option Nat × Option Int) : Transaction :=
  { transaction_date := fmtDate (yr + 1911) mo dy
    post_date :=
      match (findDates line).get? 1 with
      | some (y2, m2, d2) => some (fmtDate (y2 + 1911) m2 d2)
      | none => none
    amount := if indicatesPayment line then -(v : Int) else (v : Int)
    description :=
      (if 2 ≤ (splitByDates line).length then
        some (pyStrip (removeCurrTokens
          (stripTrailingAmount (pyStrip ((splitByDates line).getD 1 []))).length
          (stripTrailingAmount (pyStrip ((splitByDates line).getD 1 [])))))
      else none).map String.mk
    merchant :=
      (if 2 ≤ (splitByDates line).length then
        some (
          let d2 := pyStrip (removeCurrTokens
            (stripTrailingAmount (pyStrip ((splitByDates line).getD 1 []))).length
            (stripTrailingAmount (pyStrip ((splitByDates line).getD 1 []))))
          if d2.isEmpty then [] else firstTok d2)
      else none).map String.mk
    currency :=
      match findCurrency line with
      | some c => String.mk c
      | none => "TWD"
    foreign_amount :=
      match findCurrency line with
      | some _ => findForeign line
      | none => none
    transaction_type :=
      if indicatesPayment line then "payment"
      else if containsSub line "分期".toList then "installment"
      else if containsSub line "服務費".toList || containsSub line "手續費".toList then "fee"
      else "purchase"
    installment_current := inst.1
    installment_total := inst.2.1
    installment_remaining := inst.2.2 }

/-- `FubonCreditCardExtractor._parse_transaction_line`.  `none` models both
the explicit `return None` paths and the catch-all `except` (reached when
`float('')` raises on a comma-only token). -/
def parse_transaction_line (line : List Char) : Option Transaction := do
  let (yr, mo, dy, _) ← matchDateAt line 0
  let tok ← trailingNumTok (pyStrip line)
  let v ← floatOfNumTok tok
  let inst ← installmentInfoOf line
  some (buildTransaction line yr mo dy v inst)

/- specification-side restatements used by the transaction-line claim -/

/-- Keyword precedence classifier, as the spec words it:
payment, then installment, then fee, then purchase. -/
def classifyByKeywordPrecedence (line : List Char) : String :=
  if indicatesPayment line then "payment"
  else if containsSub line "分期".toList then "installment"
  else if containsSub line "服務費".toList || containsSub line "手續費".toList then "fee"
  else "purchase"

/-- The value of the trailing numeric token of the stripped line, when it
has one containing at least one digit. -/
def specTrailingValue (line : List Char) : Option Nat :=
  (trailingNumTok (pyStrip line)).bind floatOfNumTok

def hasCurrencyCode (line : List Char) : Bool := (findCurrency line).isSome

/-- The claim's per-transaction contract: keyword-precedence type, trailing
token amount with payment negation, and the TWD currency default. -/
def c8check (line : List Char) (t : Transaction) : Bool :=
  (t.transaction_type == classifyByKeywordPrecedence line)
  && ((specTrailingValue line).elim false (fun v =>
        t.amount == (if indicatesPayment line then -(v : Int) else (v : Int))))
  && (hasCurrencyCode line || t.currency == "TWD")

/- ### theorems: position safety of a masking pass (C1) -/

theorem replaceSpans_shift (pre : List Char) (l : List ((Nat × Nat) × List Char))
    (e : Nat)
    (hl : ∀ p ∈ l, e ≤ p.1.1 ∧ p.1.1 ≤ p.1.2) :
    replaceSpans pre l =
      pre.take e ++ replaceSpans (pre.drop e)
        (l.map (fun p => ((p.1.1 - e, p.1.2 - e), p.2))) := by
  cases l with
  | nil => simp [replaceSpans]
  | cons hd tl =>
    obtain ⟨⟨s1, e1⟩, m1⟩ := hd
    obtain ⟨hes1, hs1e1⟩ := hl _ (List.mem_cons_self _ _)
    simp only at hes1 hs1e1
    have hee1 : e ≤ e1 := le_trans hes1 hs1e1
    simp only [replaceSpans, List.map_cons]
    have htake : pre.take s1 = pre.take e ++ (pre.drop e).take (s1 - e) := by
      rw [← List.take_add]
      congr 1
      omega
    have hdrop : (pre.drop e).drop (e1 - e) = pre.drop e1 := by
      rw [List.drop_drop]
      congr 1
      omega
    have hmap : (tl.map (fun p => ((p.1.1 - e, p.1.2 - e), p.2))).map
          (fun p => ((p.1.1 - (e1 - e), p.1.2 - (e1 - e)), p.2))
        = tl.map (fun p => ((p.1.1 - e1, p.1.2 - e1), p.2)) := by
      rw [List.map_map]
      apply List.map_congr_left
      intro p _
      simp only [Function.comp]
      refine congrArg (fun q => (q, p.2)) ?_
      refine Prod.ext ?_ ?_ <;> simp <;> omega
    rw [htake, hdrop, hmap]
    simp [List.append_assoc]

theorem spansOK_mem {n : Nat} {l : List (Nat × Nat)} (h : spansOK n l = true) :
    ∀ p ∈ l, p.1 ≤ p.2 ∧ p.2 ≤ n := by
  induction l with
  | nil => intro p hp; cases hp
  | cons hd tl ih =>
    obtain ⟨s, e⟩ := hd
    simp only [spansOK, Bool.and_eq_true, decide_eq_true_eq] at h
    intro p hp
    rcases List.mem_cons.mp hp with hp | hp
    · subst hp; exact ⟨h.1.1.1, h.1.1.2⟩
    · exact ih h.2 p hp

theorem maskPass_items (pre : List Char) (f : List Char → List Char)
    (key cname : String) (spans : List (Nat × Nat)) :
    (maskPass pre f key cname spans).2
      = (spans.map (fun p =>
          MaskFinding.mk key cname (pySlice pre p.1 p.2)
            (f (pySlice pre p.1 p.2)) p)).reverse := by
  induction spans with
  | nil => rfl
  | cons hd tl ih =>
    obtain ⟨s, e⟩ := hd
    simp [maskPass, ih]

theorem maskPass_eq_replaceSpans (pre : List Char) (f : List Char → List Char)
    (key cname : String) (spans : List (Nat × Nat))
    (h : spansOK pre.length spans = true) :
    (maskPass pre f key cname spans).1
      = replaceSpans pre (spans.map (fun p => (p, f (pySlice pre p.1 p.2)))) := by
  induction spans with
  | nil => simp [maskPass, replaceSpans]
  | cons hd tl ih =>
    obtain ⟨s, e⟩ := hd
    simp only [spansOK, Bool.and_eq_true, decide_eq_true_eq, List.all_eq_true] at h
    obtain ⟨⟨⟨hse, hen⟩, hrest⟩, hok⟩ := h
    have hT1 : (maskPass pre f key cname tl).1
        = replaceSpans pre (tl.map (fun p => (p, f (pySlice pre p.1 p.2)))) := ih hok
    have hshift := replaceSpans_shift pre
      (tl.map (fun p => (p, f (pySlice pre p.1 p.2)))) e ?side
    case side =>
      intro p hp
      obtain ⟨q, hq, hqe⟩ := List.mem_map.mp hp
      subst hqe
      exact ⟨hrest q hq, (spansOK_mem hok q hq).1⟩
    simp only [maskPass, spliceAt, hT1, hshift]
    have hlenA : (pre.take e).length = e := by
      simp [List.length_take]; omega
    have htk : (pre.take e ++ replaceSpans (pre.drop e)
          ((tl.map (fun p => (p, f (pySlice pre p.1 p.2)))).map
            (fun p => ((p.1.1 - e, p.1.2 - e), p.2)))).take s
        = pre.take s := by
      rw [List.take_append_of_le_length (by omega)]
      rw [List.take_take]
      congr 1
      omega
    have hdr : (pre.take e ++ replaceSpans (pre.drop e)
          ((tl.map (fun p => (p, f (pySlice pre p.1 p.2)))).map
            (fun p => ((p.1.1 - e, p.1.2 - e), p.2)))).drop e
        = replaceSpans (pre.drop e)
            ((tl.map (fun p => (p, f (pySlice pre p.1 p.2)))).map
              (fun p => ((p.1.1 - e, p.1.2 - e), p.2))) := by
      rw [List.drop_append_eq_append_drop]
      rw [hlenA]
      simp
    rw [htk, hdr]
    simp only [List.map_cons, replaceSpans, List.map_map]

theorem maskPass_items_safe (pre : List Char) (f : List Char → List Char)
    (key cname : String) (spans : List (Nat × Nat)) :
    ∀ g ∈ (maskPass pre f key cname spans).2,
      g.original = pySlice pre g.pos.1 g.pos.2 ∧ g.masked = f g.original := by
  intro g hg
  rw [maskPass_items] at hg
  rw [List.mem_reverse] at hg
  obtain ⟨p, _, hpe⟩ := List.mem_map.mp hg
  subst hpe
  exact ⟨rfl, rfl⟩

theorem maskPass_replaceSpans_of_items (pre : List Char) (f : List Char → List Char)
    (key cname : String) (spans : List (Nat × Nat))
    (h : spansOK pre.length spans = true) :
    (maskPass pre f key cname spans).1
      = replaceSpans pre
          (((maskPass pre f key cname spans).2.reverse).map
            (fun g => (g.pos, g.masked))) := by
  rw [maskPass_items, List.reverse_reverse, List.map_map,
    maskPass_eq_replaceSpans pre f key cname spans h]
  rfl

theorem runPasses_items_eq (cs : List CompiledCategory) (t : List Char) :
    (runPasses cs t).2 = stepItems (stepTexts cs t) := by
  induction cs generalizing t with
  | nil => simp [runPasses, stepTexts, stepItems]
  | cons c cs ih =>
    simp only [runPasses, stepTexts, stepItems]
    rw [ih]

theorem runPasses_masked_eq (cs : List CompiledCategory) (t : List Char) :
    (runPasses cs t).1 = lastPost t (stepTexts cs t) := by
  induction cs generalizing t with
  | nil => simp [runPasses, stepTexts, lastPost]
  | cons c cs ih =>
    simp only [runPasses, stepTexts, lastPost]
    rw [ih]

theorem steps_safe (cs : List CompiledCategory) (t : List Char)
    (H : ∀ c ∈ cs, ∀ u : List Char, spansOK u.length (c.finder u) = true) :
    ∀ st ∈ stepTexts cs t,
      (∀ g ∈ (maskPass st.1 st.2.1.mask_func st.2.1.key st.2.1.cname
                (st.2.1.finder st.1)).2,
          g.original = pySlice st.1 g.pos.1 g.pos.2
        ∧ g.masked = st.2.1.mask_func g.original)
      ∧ st.2.2 = replaceSpans st.1
          (((maskPass st.1 st.2.1.mask_func st.2.1.key st.2.1.cname
              (st.2.1.finder st.1)).2.reverse).map (fun g => (g.pos, g.masked))) := by
  induction cs generalizing t with
  | nil => intro st hst; cases hst
  | cons c cs ih =>
    intro st hst
    simp only [stepTexts, List.mem_cons] at hst
    rcases hst with hst | hst
    · subst hst
      refine ⟨maskPass_items_safe _ _ _ _ _, ?_⟩
      exact maskPass_replaceSpans_of_items t c.mask_func c.key c.cname
        (c.finder t) (H c (List.mem_cons_self _ _) t)
    · exact ih _ (fun c' hc' u => H c' (List.mem_cons_of_mem _ hc') u) st hst

/-- C1.  Position safety of masking: provided each category's finder returns
ordered, non-overlapping, in-bounds spans (as `re.finditer` does), every
`MaskFinding` recorded by `PrivacyMasker.mask` carries, relative to the text
state at the start of its category's pass, exactly the original substring of
its recorded span together with its mask image; and simultaneously replacing
all of a pass's recorded spans in the pre-pass text with their masked
substrings (`replaceSpans`, a single left-to-right rewrite) reproduces the
post-pass text exactly — the rightmost-first application order inside the
pass never shifts a recorded span.  The final conjuncts tie the per-pass
statements to the returned `MaskResult`: its `sensitive_items` are exactly
the passes' findings in pass order and its `masked` text is the last pass's
output. -/
theorem c1_mask_position_safety (compiled : List CompiledCategory) (text : List Char)
    (H : ∀ c ∈ passList compiled, ∀ u : List Char, spansOK u.length (c.finder u) = true) :
    (∀ st ∈ stepTexts (passList compiled) text,
      (∀ g ∈ (maskPass st.1 st.2.1.mask_func st.2.1.key st.2.1.cname
                (st.2.1.finder st.1)).2,
          g.original = pySlice st.1 g.pos.1 g.pos.2
        ∧ g.masked = st.2.1.mask_func g.original)
      ∧ st.2.2 = replaceSpans st.1
          (((maskPass st.1 st.2.1.mask_func st.2.1.key st.2.1.cname
              (st.2.1.finder st.1)).2.reverse).map (fun g => (g.pos, g.masked))))
  ∧ (mask compiled text).sensitive_items = stepItems (stepTexts (passList compiled) text)
  ∧ (mask compiled text).masked = lastPost text (stepTexts (passList compiled) text) := by
  refine ⟨steps_safe _ _ H, ?_, ?_⟩
  · exact runPasses_items_eq _ _
  · exact runPasses_masked_eq _ _

/-- Witness for C1 at a concrete masker and input. -/
theorem c1_mask_position_safety_witness :
    (mask [demoCat] (String.toList "A123456789")).sensitive_items
      = stepItems (stepTexts (passList [demoCat]) (String.toList "A123456789"))
  ∧ (mask [demoCat] (String.toList "A123456789")).masked
      = lastPost (String.toList "A123456789")
          (stepTexts (passList [demoCat]) (String.toList "A123456789")) := by
  have H : ∀ c ∈ passList [demoCat], ∀ u : List Char,
      spansOK u.length (c.finder u) = true := by
    intro c hc u
    have hdc : c = demoCat := by
      simpa [passList, demoCat, List.filter] using hc
    subst hdc
    by_cases h : 2 ≤ u.length <;> simp [demoCat, demoFinder, spansOK, h]
  exact ⟨(c1_mask_position_safety [demoCat] (String.toList "A123456789") H).2.1,
         (c1_mask_position_safety [demoCat] (String.toList "A123456789") H).2.2⟩

/- ### theorems: registry passes and context masking (C10, C5, C3, C2) -/

/-- C10.  Context-aware masking is a no-op relative to plain masking: for
every `SmartPrivacyMasker` instance state, text, and context keyword list,
`mask_with_context(text, context_keywords)` returns exactly the `MaskResult`
that `mask(text)` returns on the same instance, because the context-driven
adjustments touch only `mask_types` and the `aggressive` flag and never
recompile `compiled_patterns`, which is all that `mask` reads. -/
theorem c10_mask_with_context_noop (st : SmartMaskerSt) (text : List Char)
    (kws : Option (List (List Char))) :
    (mask_with_context st text kws).1 = maskST st text := by
  unfold mask_with_context maskST
  cases kws with
  | none => rfl
  | some l =>
    dsimp only
    split_ifs <;> rfl

/-- C5.  The shared `PATTERNS` registry is NOT read-only: constructing one
`SmartPrivacyMasker(aggressive=True)` mutates the class-level dict, so a
`PrivacyMasker()` constructed afterwards sees `amount` in its default
category set (and compiles a different pattern set), and a masker
constructed with custom names leaks its compiled custom-name pattern into
later default-constructed instances.  This evaluates the embedded
constructors at the failing instance sequence of the claim. -/
theorem c5_registry_mutated_across_instances :
    "amount" ∈ (mkPrivacyMasker (mkSmartPrivacyMasker initPATTERNS none true).1
        none none).2.mask_types
  ∧ "amount" ∉ (mkPrivacyMasker initPATTERNS none none).2.mask_types
  ∧ (mkPrivacyMasker (mkSmartPrivacyMasker initPATTERNS none true).1
        none none).2.compiled
      ≠ (mkPrivacyMasker initPATTERNS none none).2.compiled
  ∧ (mkSmartPrivacyMasker initPATTERNS none true).1 ≠ initPATTERNS
  ∧ ("custom_names", PatternEntry.mk "王小明" "自訂姓名")
      ∈ (mkPrivacyMasker (mkPrivacyMasker initPATTERNS none
          (some ["王小明"])).1 none none).2.compiled := by decide

/-- C3.  The custom-name pass wraps the name alternation in word
boundaries, and Python word boundaries never fire between two CJK word
characters; evaluating the embedded masker of
`PrivacyMasker(custom_names=['王小明'])` on the claim's input shows that it
masks NOTHING — neither the two standalone occurrences (contradicting the
claim) nor the prefix of 王小明志.  The final conjunct shows the same masker
does mask the name when it is delimited by non-word characters, pinning the
boundary semantics. -/
theorem c3_custom_name_boundary_masks_nothing :
    (mask (maskerWithCustomNames ["王小明".toList])
        "王小明的鄰居叫王小明志".toList).masked = "王小明的鄰居叫王小明志".toList
  ∧ (mask (maskerWithCustomNames ["王小明".toList])
        "王小明的鄰居叫王小明志".toList).mask_count = 0
  ∧ (mask (maskerWithCustomNames ["王小明".toList])
        "王小明的鄰居叫王小明志".toList).sensitive_items = []
  ∧ (mask (maskerWithCustomNames ["王小明".toList])
        "姓名：王小明 先生".toList).masked = "姓名：*** 先生".toList := by decide

/-- C2 counterexample.  Masking with the built-in category set is not
idempotent: on `市中區中路5號` the address category's mask output
(`m[:6] + '***'`) re-matches the address detection pattern, so the second
mask appends three more stars.  The final conjunct shows the spec's premise
("no masking function's output re-matches its own detection pattern",
asserted for every built-in category except amount) is itself false for the
address category. -/
theorem c2_idempotence_counterexample :
    (mask builtinCompiled
        (mask builtinCompiled "市中區中路5號".toList).masked).masked
      ≠ (mask builtinCompiled "市中區中路5號".toList).masked
  ∧ (mask builtinCompiled "市中區中路5號".toList).masked
      = "市中區中路5***".toList
  ∧ (mask builtinCompiled
        (mask builtinCompiled "市中區中路5號".toList).masked).masked
      = "市中區中路5******".toList
  ∧ finditer (maskAddress "市中區中路5號".toList) rxAddress ≠ [] := by decide

theorem runPasses_no_matches (cs : List CompiledCategory) (t : List Char)
    (h : ∀ c ∈ cs, c.finder t = []) : runPasses cs t = (t, []) := by
  induction cs with
  | nil => rfl
  | cons c cs ih =>
    have hc : c.finder t = [] := h c (List.mem_cons_self _ _)
    simp only [runPasses, hc, maskPass]
    exact ih (fun c' hc' => h c' (List.mem_cons_of_mem _ hc'))

/-- C2 (amended).  Idempotence of masking holds under the corrected
hypothesis: whenever the fully masked text admits no further match of any
active category's detection pattern, a second `mask` is the identity,
`mask(mask(text).masked).masked = mask(text).masked`. -/
theorem c2_idempotence_amended (compiled : List CompiledCategory)
    (text : List Char)
    (H : ∀ c ∈ passList compiled, c.finder (mask compiled text).masked = []) :
    (mask compiled (mask compiled text).masked).masked
      = (mask compiled text).masked := by
  unfold mask
  have := runPasses_no_matches (passList compiled)
    (mask compiled text).masked H
  simp only [mask] at this
  simp [this]

/-- Witness for the amended C2 at the taiwan_id-only masker: masking
`A123456789` yields `A********9`, which no active pattern matches, so the
second mask is the identity. -/
theorem c2_idempotence_amended_witness :
    (mask taiwanIdOnlyCompiled
        (mask taiwanIdOnlyCompiled "A123456789".toList).masked).masked
      = (mask taiwanIdOnlyCompiled "A123456789".toList).masked := by
  apply c2_idempotence_amended
  intro c hc
  have hcc : c = taiwanIdOnlyCompiled.head (by simp [taiwanIdOnlyCompiled]) := by
    simpa [passList, taiwanIdOnlyCompiled, List.filter] using hc
  subst hcc
  decide

/- ### theorems: extraction manager (C6, C4, C7) -/

theorem ruleLoop_early_success (env : AIEnv)
    (validator : RecData → String → ValidationRes) (mgr : ExtractionManager)
    (text : List Char) (metadata : Option MetaD) (validate : Bool) :
    ∀ (exs : List ExtractorB) (res : MgrResult),
      ((ruleLoop env validator mgr text metadata validate exs res).1.all
        (fun r => r.success)) = true := by
  intro exs
  induction exs with
  | nil => intro res; rfl
  | cons ex rest ih =>
    intro res
    simp only [ruleLoop]
    by_cases hcan : ex.canExtract text
    · simp only [hcan, if_true]
      cases hex : ex.extractF text metadata with
      | error e => exact ih _
      | ok d =>
        by_cases hv : validate
        · simp only [hv, if_true]
          cases hs : getSchemaName d.document_type with
          | none => rfl
          | some sn =>
            by_cases hcond : (!(validator d sn).valid && mgr.enable_ai_fallback) = true
            · simp only [hcond, if_true]
              by_cases hai : (tryAIExtraction env mgr validator text d.document_type).success
              · simp [hai]
              · simp only [hai]
                rfl
            · simp only [Bool.not_eq_true] at hcond
              simp [hcond]
        · simp only [hv, if_false]
          rfl
    · simp only [hcan, if_false]
      exact ih _

/-- C6.  The extraction manager never hard-fails: `extract` is a total
function of its (modelled) inputs — every raising sub-call is either caught
(`extractor.extract`, the whole AI path) or cannot raise — and always
returns a result record carrying `success`, `method` and `errors`; whenever
it returns `success=false` (both paths failed, or AI fallback disabled and
no extractor matched) the error list is non-empty, ending with the final
`無法識別文件類型或提取失敗` entry. -/
theorem c6_extract_never_hard_fails (env : AIEnv)
    (validator : RecData → String → ValidationRes) (mgr : ExtractionManager)
    (extractors : List ExtractorB) (text : List Char) (metadata : Option MetaD)
    (validate : Bool) :
    (managerExtract env validator mgr extractors text metadata validate).success = false →
      (managerExtract env validator mgr extractors text metadata validate).errors ≠ []
    ∧ (managerExtract env validator mgr extractors text metadata validate).errors.getLast?
        = some "無法識別文件類型或提取失敗" := by
  have hall := ruleLoop_early_success env validator mgr text metadata validate
    extractors ⟨false, none, none, none, none, [], none⟩
  rcases hrl : ruleLoop env validator mgr text metadata validate extractors
      ⟨false, none, none, none, none, [], none⟩ with ⟨fst, snd⟩
  rw [hrl] at hall
  cases fst with
  | some r =>
    simp only [Option.all_some] at hall
    simp only [managerExtract, hrl]
    intro hfalse
    rw [hall] at hfalse
    cases hfalse
  | none =>
    simp only [managerExtract, hrl]
    set q := (if (!snd.success && mgr.enable_ai_fallback) = true then
        tryAIExtraction env mgr validator text none else snd) with hq
    cases hsucc : q.success with
    | true => simp [hsucc]
    | false =>
      simp only [hsucc, Bool.not_false, if_true]
      intro _
      exact ⟨by simp, List.getLast?_concat _⟩

/-- Witness for C6: AI fallback disabled and no extractor matched. -/
theorem c6_extract_never_hard_fails_witness :
    (managerExtract dummyAIEnv validatorOK ⟨false, "openai"⟩ [] [] none true).errors ≠ []
  ∧ (managerExtract dummyAIEnv validatorOK ⟨false, "openai"⟩ [] [] none true).errors.getLast?
      = some "無法識別文件類型或提取失敗" :=
  c6_extract_never_hard_fails dummyAIEnv validatorOK ⟨false, "openai"⟩ [] [] none true
    (by decide)

/-- C4 counterexample.  With a matching rule extractor whose record fails
validation, AI fallback enabled and a succeeding AI collaborator, `extract`
returns the AI result with an EMPTY error log: the validation-failure error
is appended to the discarded rule result, not to the returned AI result's
error log as the claim states. -/
theorem c4_counterexample :
    (managerExtract okAIEnv validatorFail ⟨true, "openai"⟩ [fubonLikeExtractor]
        [] none true).method = some "ai"
  ∧ (managerExtract okAIEnv validatorFail ⟨true, "openai"⟩ [fubonLikeExtractor]
        [] none true).success = true
  ∧ (managerExtract okAIEnv validatorFail ⟨true, "openai"⟩ [fubonLikeExtractor]
        [] none true).errors = []
  ∧ (managerExtract okAIEnv validatorFail ⟨true, "openai"⟩ [fubonLikeExtractor]
        [] none true).data = some ⟨some "credit_card", 2⟩ := by decide

/-- C4 (amended).  When the first extractor matches and succeeds, its record
fails validation and AI fallback is enabled: `extract` returns the AI result
— unchanged, its error log not extended — only when the AI extraction
succeeds; otherwise it returns the rule result (still `success=true`,
`method='rule_based'`) with the `規則提取驗證失敗，嘗試 AI fallback` note
appended to the rule result's error log. -/
theorem c4_ai_escalation_amended (env : AIEnv)
    (validator : RecData → String → ValidationRes) (mgr : ExtractionManager)
    (ex : ExtractorB) (text : List Char) (metadata : Option MetaD)
    (d : RecData) (sn : String)
    (hcan : ex.canExtract text = true)
    (hex : ex.extractF text metadata = .ok d)
    (hs : getSchemaName d.document_type = some sn)
    (hv : (validator d sn).valid = false)
    (hfb : mgr.enable_ai_fallback = true) :
    managerExtract env validator mgr [ex] text metadata true
      = (if (tryAIExtraction env mgr validator text d.document_type).success then
          tryAIExtraction env mgr validator text d.document_type
        else
          { success := true, method := some "rule_based", data := some d,
            raw_content := none, validation := some (validator d sn),
            errors := ["規則提取驗證失敗，嘗試 AI fallback"],
            extractor := some ex.name }) := by
  simp only [managerExtract, ruleLoop, hcan, if_true, hex, hs, hv, hfb,
    Bool.not_false, Bool.and_self]
  cases hai : (tryAIExtraction env mgr validator text d.document_type).success with
  | true => simp [hai]
  | false => simp [hai]

/-- Witness for the amended C4: concrete failing validation with a
succeeding AI collaborator; the AI result is returned as-is. -/
theorem c4_ai_escalation_amended_witness :
    managerExtract okAIEnv validatorFail ⟨true, "openai"⟩ [fubonLikeExtractor]
        [] none true
      = tryAIExtraction okAIEnv ⟨true, "openai"⟩ validatorFail []
          (some "credit_card") := by
  have h := c4_ai_escalation_amended okAIEnv validatorFail ⟨true, "openai"⟩
    fubonLikeExtractor [] none ⟨some "credit_card", 1⟩ "credit_card_schema"
    rfl rfl rfl rfl rfl
  rw [h]
  decide

/-- C7 counterexample.  Constructing the manager with an unknown provider
identifier does NOT fail at construction: `__init__` stores the provider
string unchecked, and the invalid identifier surfaces only later as a
degraded-result `AI 提取錯誤` string when AI extraction is attempted —
exactly the deferred behaviour the claim rules out. -/
theorem c7_counterexample :
    mkExtractionManager true "bogus" = Except.ok ⟨true, "bogus"⟩
  ∧ (managerExtract dummyAIEnv validatorOK ⟨true, "bogus"⟩ [] [] none true).errors
      = ["AI 提取錯誤: 'bogus' is not a valid AIProvider", "無法識別文件類型或提取失敗"]
  ∧ (managerExtract dummyAIEnv validatorOK ⟨true, "bogus"⟩ [] [] none true).success
      = false :=
  ⟨rfl, by decide, by decide⟩

/-- C7 (amended).  For every provider string outside the closed enum,
construction succeeds (never raises), and the invalid provider is surfaced
by `_try_ai_extraction` as the single caught `AI 提取錯誤` error string in a
failed AI result. -/
theorem c7_invalid_provider_deferred (p : String)
    (hp : (p == "openai" || p == "claude" || p == "custom") = false) :
    mkExtractionManager true p = Except.ok ⟨true, p⟩
  ∧ ∀ (env : AIEnv) (validator : RecData → String → ValidationRes)
      (text : List Char) (dt : Option String),
      (tryAIExtraction env ⟨true, p⟩ validator text dt).errors
        = ["AI 提取錯誤: '" ++ p ++ "' is not a valid AIProvider"]
    ∧ (tryAIExtraction env ⟨true, p⟩ validator text dt).success = false := by
  refine ⟨rfl, ?_⟩
  intro env validator text dt
  simp only [tryAIExtraction, AIProviderOfString, hp]
  exact ⟨rfl, rfl⟩

/-- Witness for the amended C7 at the provider string `bogus`. -/
theorem c7_invalid_provider_deferred_witness :
    mkExtractionManager true "bogus" = Except.ok ⟨true, "bogus"⟩
  ∧ (tryAIExtraction dummyAIEnv ⟨true, "bogus"⟩ validatorOK [] none).errors
      = ["AI 提取錯誤: 'bogus' is not a valid AIProvider"] :=
  ⟨(c7_invalid_provider_deferred "bogus" (by decide)).1,
   ((c7_invalid_provider_deferred "bogus" (by decide)).2 dummyAIEnv validatorOK
     [] none).1⟩

/- ### theorems: schema validator (C9) -/

/-- C9.  Schema validation never raises and warnings are non-fatal: for
every data dict and schema id (and any loader/iterator behaviour),
`validate_with_details` — a total function, every exception path of the
source being caught and reported — returns a report carrying the schema
identifier; a missing schema file produces `valid=false` with exactly one
error instead of an exception; on the successful-load path the `valid` flag
is determined solely by the Draft7 error list (so it is independent of the
warnings, which are computed by `_check_warnings` alone); and a concrete
record shows `valid=true` together with non-empty warnings. -/
theorem c9_validate_with_details_contract (available : Bool)
    (loadSchema : String → Except LoadErr JVal)
    (iterErrors : List (String × JVal) → JVal → List VErr)
    (data : List (String × JVal)) (schema_name : String) :
    (validate_with_details available loadSchema iterErrors data schema_name).schema_name
      = schema_name
  ∧ (∀ m, loadSchema schema_name = .error (.fileNotFound m) → available = true →
      (validate_with_details available loadSchema iterErrors data schema_name).valid
        = false
      ∧ (validate_with_details available loadSchema iterErrors data schema_name).errors
        = [ErrItem.msgOnly m])
  ∧ (∀ schema, available = true → loadSchema schema_name = .ok schema →
      ((validate_with_details available loadSchema iterErrors data schema_name).valid
          = true ↔ iterErrors data schema = [])
      ∧ (validate_with_details available loadSchema iterErrors data schema_name).warnings
          = checkWarnings data)
  ∧ (validate_with_details true (fun _ => .ok (JVal.jobj []))
      (fun _ _ => []) [("document_type", JVal.jstr "credit_card")]
      "credit_card_schema").valid = true
  ∧ (validate_with_details true (fun _ => .ok (JVal.jobj []))
      (fun _ _ => []) [("document_type", JVal.jstr "credit_card")]
      "credit_card_schema").warnings ≠ [] := by
  refine ⟨?_, ?_, ?_, by decide, by decide⟩
  · unfold validate_with_details
    by_cases hav : available
    · simp only [hav, not_true, if_neg, ite_false]
      cases hload : loadSchema schema_name with
      | ok schema => rfl
      | error e => cases e <;> rfl
    · simp [hav]
  · intro m hm hav
    unfold validate_with_details
    simp [hav, hm]
  · intro schema hav hload
    unfold validate_with_details
    simp only [hav, not_true, ite_false, hload]
    constructor
    · simp [List.isEmpty_iff]
    · trivial

/- ### theorems: Fubon transaction-line parsing (C8) -/

theorem all_bind_some {α β : Type} (o : Option α) (g : α → β) (p : β → Bool) :
    ((o.bind (fun a => some (g a))).all p) = o.all (fun a => p (g a)) := by
  cases o <;> rfl

theorem option_all_of {α : Type} (o : Option α) (p : α → Bool)
    (h : ∀ a, p a = true) : o.all p = true := by
  cases o with
  | none => rfl
  | some a => exact h a

/-- C8.  Fubon transaction-line parsing: every parsed `Transaction` has its
type classified with keyword precedence payment > installment > fee >
purchase, its amount equal to the value of the trailing numeric token,
negated exactly when the line indicates a payment/debit settlement, and
currency `TWD` whenever no embedded 3-letter currency code occurs in the
line; and a line with no parseable trailing amount (no trailing `[\d,]`
token, or a comma-only one) yields no `Transaction` — and, the embedding
being a total function into `Option`, no error. -/
theorem c8check_build (line : List Char) (yr mo dy v : Nat)
    (inst : Option Nat × Option Nat × Option Int)
    (hv : specTrailingValue line = some v) :
    c8check line (buildTransaction line yr mo dy v inst) = true := by
  simp only [c8check, buildTransaction, hv, Option.elim_some]
  cases hc : findCurrency line with
  | some c => simp [hasCurrencyCode, hc, classifyByKeywordPrecedence]
  | none => simp [hasCurrencyCode, hc, classifyByKeywordPrecedence]

/-- C8 (continued): see the doc comment above `c8check_build` helpers. -/
theorem c8_parse_transaction_line (line : List Char) :
    ((parse_transaction_line line).all (c8check line)) = true
  ∧ (specTrailingValue line = none → parse_transaction_line line = none) := by
  constructor
  · unfold parse_transaction_line
    cases hd : matchDateAt line 0 with
    | none => rfl
    | some q =>
      obtain ⟨yr, mo, dy, e⟩ := q
      cases htok : trailingNumTok (pyStrip line) with
      | none => rfl
      | some tok =>
        cases hfv : floatOfNumTok tok with
        | none =>
          simp only [Option.bind_eq_bind, Option.some_bind, hfv,
            Option.none_bind]
          rfl
        | some v =>
          simp only [Option.bind_eq_bind, Option.some_bind, hfv]
          rw [all_bind_some]
          apply option_all_of
          intro a
          exact c8check_build line yr mo dy v a
            (by simp [specTrailingValue, htok, hfv])
  · intro h
    unfold parse_transaction_line
    cases hd : matchDateAt line 0 with
    | none => rfl
    | some q =>
      obtain ⟨yr, mo, dy, e⟩ := q
      unfold specTrailingValue at h
      cases htok : trailingNumTok (pyStrip line) with
      | none => rfl
      | some tok =>
        rw [htok] at h
        simp only [Option.some_bind] at h
        simp only [Option.bind_eq_bind, Option.some_bind, h, Option.none_bind]

/-- Witness for C8 at concrete statement lines: a payment line parses and
satisfies the contract; a line with a date but no trailing numeric token
yields no transaction. -/
theorem c8_parse_transaction_line_witness :
    ((parse_transaction_line "113/08/10 繳款感謝您 113/08/16 5,000".toList).all
      (c8check "113/08/10 繳款感謝您 113/08/16 5,000".toList)) = true
  ∧ (parse_transaction_line "113/08/10 繳款感謝您 113/08/16 5,000".toList).isSome = true
  ∧ specTrailingValue "113/08/10 測試 abc".toList = none
  ∧ parse_transaction_line "113/08/10 測試 abc".toList = none :=
  ⟨(c8_parse_transaction_line _).1, by decide, by decide,
   (c8_parse_transaction_line _).2 (by decide)⟩

/-- Witness for C9: a missing schema file yields `valid=false` with exactly
one error (and no exception, the embedding being total). -/
theorem c9_validate_with_details_witness :
    (validate_with_details true
      (fun _ => Except.error (LoadErr.fileNotFound "找不到 Schema 檔案: schemas/credit_card_schema.json"))
      (fun _ _ => []) [] "credit_card_schema").valid = false
  ∧ (validate_with_details true
      (fun _ => Except.error (LoadErr.fileNotFound "找不到 Schema 檔案: schemas/credit_card_schema.json"))
      (fun _ _ => []) [] "credit_card_schema").errors
      = [ErrItem.msgOnly "找不到 Schema 檔案: schemas/credit_card_schema.json"] := by
  have h := (c9_validate_with_details_contract true
    (fun _ => Except.error (LoadErr.fileNotFound "找不到 Schema 檔案: schemas/credit_card_schema.json"))
    (fun _ _ => []) [] "credit_card_schema").2.1
    "找不到 Schema 檔案: schemas/credit_card_schema.json" rfl rfl
  exact ⟨h.1, h.2⟩
